import Mathlib

/-!
Verification of the MarkAI conversation-persistence and context-assembly
subsystem: a shallow embedding of `markai/memory/conversation_manager.py`,
`markai/memory/context_manager.py` and the prompt builder of
`markai/core/ai_engine.py`, with theorems about message ordering, the
context budget, working-memory consolidation and error propagation.

Modelling conventions: SQLite rows become records over `Nat`/`String`/`ℚ`
(timestamps are `Nat`, REAL columns are `ℚ`); a Python dict becomes an
association list with unique keys kept in insertion order; an operation
that can hit a storage fault takes a `fail : Bool` flag standing for the
underlying sqlite call raising, and returns `Except DBError` when the
Python method re-raises (methods that catch the exception and return a
default are embedded exactly that way).
-/

/-- Decidable equality for `Except`, used to evaluate the storage-layer
operations on concrete inputs. -/
instance {ε α : Type} [DecidableEq ε] [DecidableEq α] : DecidableEq (Except ε α) := fun a b =>
  match a, b with
  | .ok x, .ok y => if h : x = y then .isTrue (by rw [h]) else .isFalse (by simp [h])
  | .error x, .error y => if h : x = y then .isTrue (by rw [h]) else .isFalse (by simp [h])
  | .ok _, .error _ => .isFalse (by simp)
  | .error _, .ok _ => .isFalse (by simp)

namespace MarkAI

/-- A row of the `messages` table (`ConversationMessage` dataclass). -/
structure Message where
  id : String
  conversation_id : String
  role : String
  content : String
  timestamp : Nat
  metadata : String
  tokens_used : Option Nat
  processing_time : Option ℚ
  confidence : Option ℚ
deriving DecidableEq

/-- A row of the `conversations` table. -/
structure Conversation where
  id : String
  user_id : String
  title : String
  created_at : Nat
  updated_at : Nat
  metadata : String
deriving DecidableEq

/-- The persistent store: both tables, rows in physical insertion order. -/
structure DB where
  conversations : List Conversation
  messages : List Message
deriving DecidableEq

/-- Errors of the storage layer. `storage` is an underlying sqlite fault;
`notFound` is the `NotFoundError` of the specification taxonomy (the code
never produces it, which several theorems below make precise). -/
inductive DBError
  | storage
  | notFound
deriving DecidableEq

/-- Whether a conversation id is present in the registry. -/
def conversation_exists (db : DB) (conversation_id : String) : Bool :=
  db.conversations.any (fun c => c.id == conversation_id)

/-- `ConversationManager.add_message`: inserts the new message row, then
refreshes `updated_at` of every conversation row matching the id (the SQL
`UPDATE ... WHERE id = ?`, a no-op when the conversation is absent: the
code enables no foreign-key enforcement and performs no existence check).
On a storage fault the exception is re-raised. -/
def add_message (fail : Bool) (db : DB) (message_id conversation_id role content : String)
    (metadata : String) (tokens_used : Option Nat) (processing_time : Option ℚ)
    (confidence : Option ℚ) (now : Nat) : Except DBError (String × DB) :=
  if fail then .error .storage
  else
    let msg : Message :=
      ⟨message_id, conversation_id, role, content, now, metadata,
        tokens_used, processing_time, confidence⟩
    .ok (message_id,
      { conversations :=
          db.conversations.map
            (fun c => if c.id = conversation_id then { c with updated_at := now } else c),
        messages := db.messages ++ [msg] })

/-- The `ORDER BY timestamp ASC` comparison. -/
def msgLe (a b : Message) : Bool :=
  a.timestamp ≤ b.timestamp

/-- `ConversationManager.get_conversation_history`: rows of the
conversation ordered by timestamp ascending; `LIMIT` is appended only when
the Python `limit` is truthy (so `some 0` behaves like `none`); with
`include_metadata = false` the metadata column is replaced by an empty
dict. Re-raises on a storage fault. -/
def get_conversation_history (fail : Bool) (db : DB) (conversation_id : String)
    (limit : Option Nat) (include_metadata : Bool) : Except DBError (List Message) :=
  if fail then .error .storage
  else
    let rows :=
      List.mergeSort (db.messages.filter (fun m => m.conversation_id == conversation_id)) msgLe
    let rows := if include_metadata then rows else rows.map (fun m => { m with metadata := "\x7b\x7d" })
    match limit with
    | some l => if l = 0 then .ok rows else .ok (rows.take l)
    | none => .ok rows

/-- `ConversationManager.delete_conversation`: deletes the messages of the
conversation, then the conversation row, and returns `true` — with no
check that anything was there to delete. The `except` clause catches a
storage fault and returns `false` (nothing was committed). -/
def delete_conversation (fail : Bool) (db : DB) (conversation_id : String) : Bool × DB :=
  if fail then (false, db)
  else
    (true,
      { conversations := db.conversations.filter (fun c => ! (c.id == conversation_id)),
        messages := db.messages.filter (fun m => ! (m.conversation_id == conversation_id)) })

/-- Character-list version of "starts with", used to model SQL `LIKE`. -/
def charsStartWith : List Char → List Char → Bool
  | [], _ => true
  | _ :: _, [] => false
  | a :: as, b :: bs => a == b && charsStartWith as bs

/-- SQL `content LIKE '%query%'` (ASCII case-insensitive containment). -/
def likeContains (content pat : String) : Bool :=
  let h := content.toLower.toList
  let p := pat.toLower.toList
  (List.range (h.length + 1)).any (fun i => charsStartWith p (h.drop i))

/-- `ConversationManager.search_messages`: messages of the given user
whose content matches the substring, most recent first, first `limit`
rows. The `except` clause swallows a storage fault and returns the empty
list. -/
def search_messages (fail : Bool) (db : DB) (user_id query : String) (limit : Nat) :
    Except DBError (List Message) :=
  if fail then .ok []
  else
    let rows :=
      List.mergeSort
        (db.messages.filter (fun m =>
          db.conversations.any (fun c => c.id == m.conversation_id && c.user_id == user_id)
            && likeContains m.content query))
        (fun a b => b.timestamp ≤ a.timestamp)
    .ok (rows.take limit)

/-- The aggregate row computed by `get_conversation_stats`. -/
structure Stats where
  message_count : Nat
  total_tokens : Nat
  avg_tokens : ℚ
  total_processing_time : ℚ
  avg_confidence : ℚ
deriving DecidableEq

/-- `ConversationManager.get_conversation_stats`: COUNT/SUM/AVG over the
messages of the conversation, NULL columns excluded from sums and
averages and a NULL aggregate replaced by zero (`row[i] or 0`). The
`except` clause swallows a storage fault and returns the empty dict,
modelled as `none`. -/
def get_conversation_stats (fail : Bool) (db : DB) (conversation_id : String) :
    Except DBError (Option Stats) :=
  if fail then .ok none
  else
    let msgs := db.messages.filter (fun m => m.conversation_id == conversation_id)
    let toks := msgs.filterMap (fun m => m.tokens_used)
    let times := msgs.filterMap (fun m => m.processing_time)
    let confs := msgs.filterMap (fun m => m.confidence)
    .ok (some
      { message_count := msgs.length,
        total_tokens := toks.sum,
        avg_tokens := if toks.length = 0 then 0 else (toks.sum : ℚ) / (toks.length : ℚ),
        total_processing_time := times.sum,
        avg_confidence := if confs.length = 0 then 0 else confs.sum / (confs.length : ℚ) })

/-- `ConversationManager.cleanup_old_conversations`: collects the ids of
conversations whose `updated_at` predates the cutoff, deletes their
messages and the conversation rows, and returns how many conversations
were collected. The `except` clause swallows a storage fault and returns
a zero count with nothing committed. -/
def cleanup_old_conversations (fail : Bool) (db : DB) (cutoff : Nat) :
    Except DBError (Nat × DB) :=
  if fail then .ok (0, db)
  else
    let old := db.conversations.filter (fun c => c.updated_at < cutoff)
    .ok (old.length,
      { conversations := db.conversations.filter (fun c => ! old.any (fun o => o.id == c.id)),
        messages := db.messages.filter (fun m => ! old.any (fun o => o.id == m.conversation_id)) })

/-- Rendering of one history message inside
`ContextManager.get_context_for_conversation`. -/
def render_message (m : Message) : String :=
  m.role ++ ": " ++ m.content

/-- The selection loop of `get_context_for_conversation`: walk the
reversed (most-recent-first) message list, prepend each rendering while
the running total stays within the budget, stop at the first message that
does not fit. -/
def select_context_parts (max_tokens : Nat) : List Message → List String → Nat → List String
  | [], acc, _ => acc
  | m :: rest, acc, total =>
    let t := render_message m
    if total + t.length ≤ max_tokens then
      select_context_parts max_tokens rest (t :: acc) (total + t.length)
    else acc

/-- Python `sep.join`. -/
def joinSep (sep : String) : List String → String
  | [] => ""
  | [s] => s
  | s :: rest => s ++ sep ++ joinSep sep rest

/-- `ContextManager.get_context_for_conversation`, as a function of the
retrieved history (oldest first, in the source the result of
`get_conversation_history(conversation_id, limit=50)`) and the character
budget: the kept renderings joined by newlines. -/
def get_context_for_conversation (messages : List Message) (max_tokens : Nat) : String :=
  joinSep "\n" (select_context_parts max_tokens messages.reverse [] 0)

/-- One entry of the working-memory dict of a conversation
(`working_memory[conversation_id][key]` in `ContextManager`). -/
structure WMItem where
  value : String
  timestamp : Nat
  importance : ℚ
  access_count : Nat
deriving DecidableEq

/-- One entry of the long-term store of a conversation (the JSON file
written by `_store_long_term_memory`). -/
structure LTItem where
  value : String
  strength : ℚ
  consolidated_at : Nat
deriving DecidableEq

/-- A Python dict as an association list: unique keys, insertion order. -/
abbrev WMMap := List (String × WMItem)

/-- The in-memory state of `ContextManager` relevant to working memory:
`working_memory` maps a conversation id to its dict of items, `long_term`
maps a conversation id to the contents of its memory file. -/
structure CtxState where
  working_memory : List (String × WMMap)
  long_term : List (String × List (String × LTItem))
deriving DecidableEq

/-- Lookup in an association list (first entry with the key wins). -/
def lookupA {β : Type} : List (String × β) → String → Option β
  | [], _ => none
  | (k', v) :: t, k => if k' = k then some v else lookupA t k

/-- Python dict assignment `d[k] = v`: replace the value in place when the
key is present, append the new entry otherwise. -/
def setAssoc {β : Type} : List (String × β) → String → β → List (String × β)
  | [], k, v => [(k, v)]
  | (k', v') :: t, k, v => if k' = k then (k, v) :: t else (k', v') :: setAssoc t k v

/-- `ContextManager.update_working_memory`: upsert of a working-memory
entry with a fresh timestamp and `access_count` reset to 1. -/
def update_working_memory (st : CtxState) (conversation_id key value : String)
    (importance : ℚ) (now : Nat) : CtxState :=
  let wm := (lookupA st.working_memory conversation_id).getD []
  { st with
    working_memory :=
      setAssoc st.working_memory conversation_id
        (setAssoc wm key ⟨value, now, importance, 1⟩) }

/-- Result of a `get_working_memory` call: Python `None`, a single value,
or the whole per-conversation dict. -/
inductive WMResult
  | nothing
  | value (v : String)
  | full (m : WMMap)
deriving DecidableEq

/-- `ContextManager.get_working_memory`: an unknown conversation yields
`None`; a truthy `key` (Python `if key:` — the empty string counts as
absent) that is present has its `access_count` incremented in place and
its value returned; with no key the whole dict is returned as is, with no
access-count update. -/
def get_working_memory (st : CtxState) (conversation_id : String) (key : Option String) :
    WMResult × CtxState :=
  match lookupA st.working_memory conversation_id with
  | none => (.nothing, st)
  | some wm =>
    match key with
    | some k =>
      if k = "" then (.full wm, st)
      else
        match lookupA wm k with
        | some item =>
          let item' := { item with access_count := item.access_count + 1 }
          (.value item'.value,
            { st with
              working_memory :=
                setAssoc st.working_memory conversation_id (setAssoc wm k item') })
        | none => (.nothing, st)
    | none => (.full wm, st)

/-- The consolidation score `importance * access_count`. -/
def strength (item : WMItem) : ℚ :=
  item.importance * (item.access_count : ℚ)

/-- The `important_memories` dict built by `consolidate_memory`: every
entry whose strength is strictly above the 2.0 threshold, mapped to its
long-term form. -/
def consolidateEntries (wm : WMMap) (now : Nat) : List (String × LTItem) :=
  (wm.filter (fun kv => decide (strength kv.2 > 2))).map
    (fun kv => (kv.1, ⟨kv.2.value, strength kv.2, now⟩))

/-- Python `old.update(new)` on dicts: values of colliding keys are
overwritten in place, keys only in `new` are appended in order. -/
def dictUpdate {β : Type} (old new : List (String × β)) : List (String × β) :=
  (old.map (fun kv => (kv.1, (lookupA new kv.1).getD kv.2)))
  ++ new.filter (fun kv => (lookupA old kv.1).isNone)

/-- `ContextManager._store_long_term_memory`: load the existing memory
file of the conversation (empty when absent), merge the new entries into
it with `dict.update`, and write it back. -/
def store_long_term_memory (lt : List (String × List (String × LTItem)))
    (conversation_id : String) (memories : List (String × LTItem)) :
    List (String × List (String × LTItem)) :=
  let existing := (lookupA lt conversation_id).getD []
  setAssoc lt conversation_id (dictUpdate existing memories)

/-- `ContextManager.consolidate_memory`: a no-op for an unknown
conversation; otherwise the entries with strength above the threshold are
copied into long-term storage (only when there is at least one), and
working memory is left untouched. -/
def consolidate_memory (st : CtxState) (conversation_id : String) (now : Nat) : CtxState :=
  match lookupA st.working_memory conversation_id with
  | none => st
  | some wm =>
    let important := consolidateEntries wm now
    if important.isEmpty then st
    else { st with long_term := store_long_term_memory st.long_term conversation_id important }

/-- The trailing response-format instruction appended by
`MarkAICore._build_prompt` (the triple-quoted literal of the source). -/
def response_format_instruction : String :=
  "\n        Please provide a helpful response. If this is a complex problem, include your reasoning steps.\n        Format your response as JSON with the following structure:\n        \x7b\n            \"response\": \"Your main response here\",\n            \"reasoning_steps\": [\"Step 1\", \"Step 2\", ...],\n            \"confidence\": 0.95,\n            \"suggestions\": [\"Optional suggestion 1\", ...]\n        \x7d\n        "

/-- `MarkAICore._build_prompt`: fixed-order concatenation of system
prompt, user-preference section, expertise section, the last ten history
exchanges, additional context, the current message and the response
instruction, joined by blank lines; a falsy section input (absent value,
empty list) is omitted. `preferences` and `additional_context` stand for
the already-serialized `json.dumps` text. -/
def build_prompt (system_prompt message : String)
    (history : List (String × String))
    (preferences : Option String) (expertise_areas : List String)
    (additional_context : Option String) : String :=
  let parts := [system_prompt]
  let parts := parts ++
    (match preferences with
      | some p => ["User Preferences: " ++ p]
      | none => [])
  let parts := parts ++
    (if expertise_areas.isEmpty then []
      else ["User\x27s Expertise Areas: " ++ joinSep ", " expertise_areas])
  let parts := parts ++
    (if history.isEmpty then []
      else "Conversation History:" ::
        (history.drop (history.length - 10)).foldr
          (fun e acc => ("User: " ++ e.1) :: ("Assistant: " ++ e.2) :: acc) [])
  let parts := parts ++
    (match additional_context with
      | some c => ["Additional Context: " ++ c]
      | none => [])
  let parts := parts ++ ["Current Message: " ++ message]
  let parts := parts ++ [response_format_instruction]
  joinSep "\n\n" parts

/-- The physical message order respects timestamps: what the strictly
monotone `CURRENT_TIMESTAMP` of serialized appends guarantees, and what
`add_message` preserves when `now` dominates the existing rows. -/
def timestamps_sorted (db : DB) : Prop :=
  db.messages.Pairwise (fun a b => a.timestamp ≤ b.timestamp)

/-- Total character count of a list of strings. -/
def sum_lengths (l : List String) : Nat :=
  (l.map String.length).sum

/-- Fixture: a single message whose rendering has 17 characters. -/
def msg_hello : Message :=
  ⟨"m0", "c1", "user", "hello world", 1, "", none, none, none⟩

/-- Fixture: a message rendering to the 5 characters `u: aa`. -/
def msg_aa1 : Message :=
  ⟨"mA", "c1", "u", "aa", 1, "", none, none, none⟩

/-- Fixture: a second message rendering to the 5 characters `u: aa`. -/
def msg_aa2 : Message :=
  ⟨"mB", "c1", "u", "aa", 2, "", none, none, none⟩

/-- Fixture: a registered conversation of user `u1`. -/
def conv_c1 : Conversation :=
  ⟨"c1", "u1", "t", 0, 0, ""⟩

/-- Fixture: a store with one conversation holding one message. -/
def db_one : DB :=
  ⟨[conv_c1], [⟨"m1", "c1", "user", "say hi now", 1, "", none, none, none⟩]⟩

/-- Fixture: a store with one conversation holding two messages. -/
def db_two : DB :=
  ⟨[conv_c1], [msg_aa1, msg_aa2]⟩

/-- Fixture: a working-memory item read once with importance 1. -/
def item_once : WMItem :=
  ⟨"v", 0, 1, 1⟩

/-- Fixture: working memory of one conversation with one item. -/
def st_one : CtxState :=
  ⟨[("c1", [("k", item_once)])], []⟩

/-- Fixture: the working-memory example of the specification: key `a` has
importance 2.0 and 2 reads (strength 4.0), key `b` has importance 0.5 and
1 read (strength 0.5). -/
def st_strength : CtxState :=
  ⟨[("c1", [("a", ⟨"va", 0, 2, 2⟩), ("b", ⟨"vb", 0, 1/2, 1⟩)])], []⟩

/-! ### Context assembler: budget behaviour (C1, C2) -/

theorem sum_lengths_cons (s : String) (l : List String) :
    sum_lengths (s :: l) = s.length + sum_lengths l := by
  simp [sum_lengths]

theorem select_context_parts_sum_le (B : Nat) (rev : List Message) (acc : List String)
    (total : Nat) :
    sum_lengths (select_context_parts B rev acc total) ≤ sum_lengths acc + (B - total) := by
  induction rev generalizing acc total with
  | nil => simp [select_context_parts]
  | cons m rest ih =>
    simp only [select_context_parts]
    split
    · next h =>
      have h2 := ih (render_message m :: acc) (total + (render_message m).length)
      rw [sum_lengths_cons] at h2
      omega
    · omega

theorem joinSep_length (sep : String) (l : List String) :
    (joinSep sep l).length = sum_lengths l + sep.length * (l.length - 1) := by
  induction l with
  | nil => simp [joinSep, sum_lengths]
  | cons s rest ih =>
    cases rest with
    | nil => simp [joinSep, sum_lengths]
    | cons t r =>
      show (s ++ sep ++ joinSep sep (t :: r)).length = _
      rw [String.length_append, String.length_append, ih, sum_lengths_cons, sum_lengths_cons]
      simp only [List.length_cons, Nat.add_sub_cancel, Nat.mul_succ, sum_lengths_cons]
      ring

/-- Claim C1, counterexample: for a conversation whose single (hence most
recent) message renders to 17 characters against a budget of 5, the
assembled context is the empty string, not that rendered message — the
over-budget message is dropped, not "included alone". -/
theorem assemble_drops_over_budget_message_example :
    (render_message msg_hello).length > 5 ∧
    get_context_for_conversation [msg_hello] 5 = "" ∧
    get_context_for_conversation [msg_hello] 5 ≠ render_message msg_hello := by
  decide

/-- Claim C1 (amended): when the rendering of the most recent message is
strictly longer than the budget, the selection loop stops at its first
iteration and the assembled context is the empty string. -/
theorem assemble_over_budget_head_returns_empty (msgs : List Message) (m : Message) (B : Nat)
    (h : B < (render_message m).length) :
    get_context_for_conversation (msgs ++ [m]) B = "" := by
  unfold get_context_for_conversation
  have hrev : (msgs ++ [m]).reverse = m :: msgs.reverse := by simp
  rw [hrev]
  show joinSep "\n" (select_context_parts B (m :: msgs.reverse) [] 0) = ""
  unfold select_context_parts
  rw [if_neg (by omega)]
  rfl

/-- Claim C1, witness for the amended theorem at a concrete input. -/
theorem assemble_over_budget_empty_example :
    5 < (render_message msg_hello).length ∧
    get_context_for_conversation ([] ++ [msg_hello]) 5 = "" :=
  ⟨by decide, assemble_over_budget_head_returns_empty [] msg_hello 5 (by decide)⟩

/-- Claim C2, counterexample: two messages rendering to 5 characters each
against a budget of 10 — the most recent rendering fits the budget, both
messages are kept, and the returned string has length 11 > 10 because the
accumulated total never counts the newline separators. -/
theorem assemble_exceeds_budget_with_separators_example :
    (render_message msg_aa2).length ≤ 10 ∧
    (get_context_for_conversation [msg_aa1, msg_aa2] 10).length = 11 := by
  decide

/-- Claim C2 (amended): the budget bounds the total rendered length of
the kept messages, excluding separators; with the newline separators the
returned string is bounded by the budget plus one character per
separator, i.e. the number of kept messages minus one. -/
theorem assemble_content_within_budget (msgs : List Message) (B : Nat) :
    sum_lengths (select_context_parts B msgs.reverse [] 0) ≤ B ∧
    (get_context_for_conversation msgs B).length ≤
      B + ((select_context_parts B msgs.reverse [] 0).length - 1) := by
  have h := select_context_parts_sum_le B msgs.reverse [] 0
  simp only [sum_lengths, List.map_nil, List.sum_nil, Nat.zero_add, Nat.sub_zero] at h
  refine ⟨by simpa [sum_lengths] using h, ?_⟩
  unfold get_context_for_conversation
  rw [joinSep_length]
  have hsep : ("\n" : String).length = 1 := rfl
  rw [hsep]
  have h2 : sum_lengths (select_context_parts B msgs.reverse [] 0) ≤ B := by
    simpa [sum_lengths] using h
  omega

/-! ### Message store and registry (C3, C4, C5, C6) -/

/-- Claim C3, counterexample: appending to a conversation id absent from
the registry does not fail with `NotFoundError` — the insert succeeds and
creates an orphan message row. -/
theorem add_message_missing_conversation_succeeds_example :
    conversation_exists ⟨[], []⟩ "c1" = false ∧
    add_message false ⟨[], []⟩ "m1" "c1" "user" "hi" "" none none none 7
      = .ok ("m1", ⟨[], [⟨"m1", "c1", "user", "hi", 7, "", none, none, none⟩]⟩) ∧
    add_message false ⟨[], []⟩ "m1" "c1" "user" "hi" "" none none none 7
      ≠ .error DBError.notFound := by
  decide

/-- Claim C3 (amended): `add_message` performs no existence check — for
every conversation id, present or not, it succeeds (absent a storage
fault), always creates exactly one new message row, and refreshes
`updated_at` of every registry row carrying that id. -/
theorem add_message_always_inserts (db : DB) (mid cid role content meta : String)
    (tok : Option Nat) (pt conf : Option ℚ) (now : Nat) :
    ∃ db', add_message false db mid cid role content meta tok pt conf now = .ok (mid, db')
      ∧ db'.messages = db.messages ++ [⟨mid, cid, role, content, now, meta, tok, pt, conf⟩]
      ∧ ∀ c ∈ db.conversations,
          (if c.id = cid then { c with updated_at := now } else c) ∈ db'.conversations := by
  refine ⟨_, rfl, rfl, ?_⟩
  intro c hc
  exact List.mem_map_of_mem _ hc

/-- Claim C3, witness for the amended theorem at a concrete input. -/
theorem add_message_always_inserts_example :
    ∃ db', add_message false (DB.mk [] []) "m1" "c1" "user" "hi" "" none none none 7
        = .ok ("m1", db')
      ∧ db'.messages = (DB.mk [] []).messages ++ [⟨"m1", "c1", "user", "hi", 7, "", none, none, none⟩]
      ∧ ∀ c ∈ (DB.mk [] []).conversations,
          (if c.id = "c1" then { c with updated_at := 7 } else c) ∈ db'.conversations :=
  add_message_always_inserts (DB.mk [] []) "m1" "c1" "user" "hi" "" none none none 7

/-- Claim C4, counterexample: deleting a conversation id that is not in
the registry reports success — the call returns `true`, not `false`. -/
theorem delete_missing_conversation_returns_true_example :
    conversation_exists ⟨[], []⟩ "c1" = false ∧
    delete_conversation false ⟨[], []⟩ "c1" = (true, ⟨[], []⟩) := by
  decide

/-- Claim C4 (amended): `delete_conversation` returns `true` whenever the
storage layer succeeds, whether or not the conversation existed; it
returns `false` exactly on a storage fault (leaving the store unchanged)
and never raises; on success it removes the conversation row and every
message of the conversation. -/
theorem delete_conversation_result_spec (db : DB) (cid : String) :
    (delete_conversation false db cid).1 = true ∧
    delete_conversation true db cid = (false, db) ∧
    (∀ m ∈ (delete_conversation false db cid).2.messages, m.conversation_id ≠ cid) ∧
    (∀ c ∈ (delete_conversation false db cid).2.conversations, c.id ≠ cid) := by
  refine ⟨rfl, rfl, ?_, ?_⟩
  · intro m hm
    simp [delete_conversation, List.mem_filter] at hm
    exact hm.2
  · intro c hc
    simp [delete_conversation, List.mem_filter] at hc
    exact hc.2

/-- Claim C4, witness for the amended theorem at a concrete input. -/
theorem delete_conversation_result_example :
    (delete_conversation false db_one "c1").1 = true ∧
    delete_conversation true db_one "c1" = (false, db_one) ∧
    (∀ m ∈ (delete_conversation false db_one "c1").2.messages, m.conversation_id ≠ "c1") ∧
    (∀ c ∈ (delete_conversation false db_one "c1").2.conversations, c.id ≠ "c1") :=
  delete_conversation_result_spec db_one "c1"

/-- Claim C5 (confirmed): in a store whose physical message order
respects timestamps — which serialized appends under a monotone clock
maintain — any two messages of a conversation appear in the history of
that conversation in their append order: `ORDER BY timestamp ASC` keeps
the sorted physical order, and filtering preserves relative order. -/
theorem history_preserves_append_order (db : DB) (cid : String) (l1 l2 l3 : List Message)
    (m1 m2 : Message) (hwf : timestamps_sorted db)
    (hsplit : db.messages = l1 ++ m1 :: (l2 ++ m2 :: l3))
    (h1 : m1.conversation_id = cid) (h2 : m2.conversation_id = cid) :
    ∃ msgs, get_conversation_history false db cid none true = .ok msgs ∧
      [m1, m2].Sublist msgs := by
  refine ⟨_, rfl, ?_⟩
  have hwf2 : db.messages.Pairwise (fun a b => a.timestamp ≤ b.timestamp) := hwf
  have hsorted : (db.messages.filter (fun m => m.conversation_id == cid)).Pairwise
      (fun a b => msgLe a b = true) := by
    have hf := List.Pairwise.filter (fun m => m.conversation_id == cid) hwf2
    exact hf.imp (fun hab => by simpa [msgLe] using hab)
  show [m1, m2].Sublist
    (List.mergeSort (db.messages.filter (fun m => m.conversation_id == cid)) msgLe)
  rw [List.mergeSort_of_sorted hsorted]
  have hsub : [m1, m2].Sublist db.messages := by
    rw [hsplit]
    refine List.Sublist.trans ?_ (List.sublist_append_right l1 _)
    refine List.Sublist.cons₂ m1 ?_
    refine List.Sublist.trans ?_ (List.sublist_append_right l2 _)
    exact List.Sublist.cons₂ m2 (List.nil_sublist l3)
  have hfs := hsub.filter (fun m => m.conversation_id == cid)
  rwa [show List.filter (fun m => m.conversation_id == cid) [m1, m2] = [m1, m2] from by
    simp [List.filter, h1, h2]] at hfs

/-- Claim C5, witness: the two-message store evaluated concretely. -/
theorem history_preserves_append_order_example :
    ∃ msgs, get_conversation_history false db_two "c1" none true = .ok msgs ∧
      [msg_aa1, msg_aa2].Sublist msgs :=
  history_preserves_append_order db_two "c1" [] [] [] msg_aa1 msg_aa2
    (by show db_two.messages.Pairwise _; decide) rfl rfl rfl

/-- Claim C6, counterexample: on a storage fault, `search_messages`
returns the empty list, `get_conversation_stats` the empty dict and
`cleanup_old_conversations` a zero count — the failure is swallowed and a
default is returned instead of an error being surfaced. -/
theorem storage_failure_swallowed_example :
    search_messages true db_one "u1" "hi" 50 = .ok [] ∧
    search_messages true db_one "u1" "hi" 50 ≠ .error DBError.storage ∧
    get_conversation_stats true db_one "c1" = .ok none ∧
    cleanup_old_conversations true db_one 30 = .ok (0, db_one) ∧
    cleanup_old_conversations true db_one 30 ≠ .error DBError.storage := by
  decide

/-- Claim C6 (amended): the `except` clauses of search, stats and
retention cleanup swallow every storage fault, logging it and returning
the defaults `[]`, `{}` and `0` respectively; no error reaches the
caller from these three operations. -/
theorem storage_failure_returns_defaults (db : DB) (u q : String) (lim : Nat) (cid : String)
    (cutoff : Nat) :
    search_messages true db u q lim = .ok [] ∧
    get_conversation_stats true db cid = .ok none ∧
    cleanup_old_conversations true db cutoff = .ok (0, db) :=
  ⟨rfl, rfl, rfl⟩


/-! ### Working memory (C7, C8, C10) and prompt builder (C9) -/

theorem lookupA_setAssoc_self {β : Type} (l : List (String × β)) (k : String) (v : β) :
    lookupA (setAssoc l k v) k = some v := by
  induction l with
  | nil => simp [setAssoc, lookupA]
  | cons kv t ih =>
    obtain ⟨k0, v0⟩ := kv
    by_cases h : k0 = k
    · simp [setAssoc, h, lookupA]
    · simp [setAssoc, h, lookupA, ih]

theorem lookupA_setAssoc_ne {β : Type} (l : List (String × β)) (k k2 : String) (v : β)
    (h : k2 ≠ k) : lookupA (setAssoc l k v) k2 = lookupA l k2 := by
  have hne : ¬ k = k2 := fun hh => h hh.symm
  induction l with
  | nil => simp [setAssoc, lookupA, hne]
  | cons kv t ih =>
    obtain ⟨k0, v0⟩ := kv
    by_cases h0 : k0 = k
    · subst h0
      simp [setAssoc, lookupA, hne]
    · simp [setAssoc, h0, lookupA, ih]

theorem lookupA_eq_none_of_key_not_mem {β : Type} (l : List (String × β)) (k : String)
    (h : k ∉ l.map Prod.fst) : lookupA l k = none := by
  induction l with
  | nil => rfl
  | cons kv t ih =>
    obtain ⟨k0, v0⟩ := kv
    simp only [List.map_cons, List.mem_cons, not_or] at h
    have hne : ¬ k0 = k := fun hh => h.1 hh.symm
    simp [lookupA, hne, ih h.2]

theorem lookupA_append {β : Type} (l1 l2 : List (String × β)) (k : String) :
    lookupA (l1 ++ l2) k = (lookupA l1 k).or (lookupA l2 k) := by
  induction l1 with
  | nil => simp [lookupA]
  | cons kv t ih =>
    obtain ⟨k0, v0⟩ := kv
    by_cases h : k0 = k
    · simp [lookupA, h]
    · simp [lookupA, h, ih]

theorem lookupA_map_getD {β : Type} (old new : List (String × β)) (k : String) :
    lookupA (old.map (fun kv => (kv.1, (lookupA new kv.1).getD kv.2))) k
      = (lookupA old k).map (fun v => (lookupA new k).getD v) := by
  induction old with
  | nil => rfl
  | cons kv t ih =>
    obtain ⟨k0, v0⟩ := kv
    by_cases h : k0 = k
    · subst h
      simp [lookupA]
    · simp [lookupA, h, ih]

theorem lookupA_filter_key {β : Type} (p : String → Bool) (l : List (String × β)) (k : String) :
    lookupA (l.filter (fun kv => p kv.1)) k = if p k then lookupA l k else none := by
  induction l with
  | nil => simp [lookupA]
  | cons kv t ih =>
    obtain ⟨k0, v0⟩ := kv
    by_cases h : k0 = k
    · subst h
      cases hp : p k0 <;> simp [List.filter_cons, hp, lookupA, ih]
    · cases hp : p k0 <;> simp [List.filter_cons, hp, lookupA, h, ih]

theorem lookupA_dictUpdate {β : Type} (old new : List (String × β)) (k : String) :
    lookupA (dictUpdate old new) k
      = match lookupA old k with
        | some v => some ((lookupA new k).getD v)
        | none => lookupA new k := by
  unfold dictUpdate
  rw [lookupA_append, lookupA_map_getD,
    lookupA_filter_key (fun x => (lookupA old x).isNone) new k]
  cases h : lookupA old k <;> simp [h, Option.or]

theorem lookupA_consolidateEntries_none (wm : WMMap) (now : Nat) (k : String)
    (h : lookupA wm k = none) : lookupA (consolidateEntries wm now) k = none := by
  induction wm with
  | nil => rfl
  | cons kv t ih =>
    obtain ⟨k0, it⟩ := kv
    by_cases hk : k0 = k
    · subst hk
      simp [lookupA] at h
    · have ht : lookupA t k = none := by simpa [lookupA, hk] using h
      unfold consolidateEntries at ih ⊢
      cases hs : decide (strength it > 2) <;>
        simp [List.filter_cons, hs, lookupA, hk, ih ht]

theorem lookupA_consolidateEntries_pos (wm : WMMap) (now : Nat) (k : String) (item : WMItem)
    (hnd : (wm.map Prod.fst).Nodup) (h : lookupA wm k = some item)
    (hs : strength item > 2) :
    lookupA (consolidateEntries wm now) k = some ⟨item.value, strength item, now⟩ := by
  induction wm with
  | nil => simp [lookupA] at h
  | cons kv t ih =>
    obtain ⟨k0, it⟩ := kv
    simp only [List.map_cons, List.nodup_cons] at hnd
    by_cases hk : k0 = k
    · subst hk
      have : it = item := by simpa [lookupA] using h
      subst this
      unfold consolidateEntries
      simp [List.filter_cons, hs, lookupA]
    · have ht : lookupA t k = some item := by simpa [lookupA, hk] using h
      have := ih hnd.2 ht
      unfold consolidateEntries at this ⊢
      cases hds : decide (strength it > 2) <;>
        simp [List.filter_cons, hds, lookupA, hk, this]

theorem lookupA_consolidateEntries_neg (wm : WMMap) (now : Nat) (k : String) (item : WMItem)
    (hnd : (wm.map Prod.fst).Nodup) (h : lookupA wm k = some item)
    (hs : ¬ strength item > 2) :
    lookupA (consolidateEntries wm now) k = none := by
  induction wm with
  | nil => simp [lookupA] at h
  | cons kv t ih =>
    obtain ⟨k0, it⟩ := kv
    simp only [List.map_cons, List.nodup_cons] at hnd
    by_cases hk : k0 = k
    · subst hk
      have : it = item := by simpa [lookupA] using h
      subst this
      have ht : lookupA t k0 = none :=
        lookupA_eq_none_of_key_not_mem t k0 hnd.1
      have hrest := lookupA_consolidateEntries_none t now k0 ht
      unfold consolidateEntries at hrest ⊢
      simp [List.filter_cons, hs, hrest]
    · have ht : lookupA t k = some item := by simpa [lookupA, hk] using h
      have := ih hnd.2 ht
      unfold consolidateEntries at this ⊢
      cases hds : decide (strength it > 2) <;>
        simp [List.filter_cons, hds, lookupA, hk, this]

/-- Claim C7 (confirmed): with working memory present for the
conversation (a dict, so with unique keys), consolidation copies exactly
the keys whose strength `importance * access_count` strictly exceeds the
2.0 threshold into the long-term store of the conversation, the new
values winning on key collision and every other long-term entry left
unchanged, and it does not clear working memory. -/
theorem consolidate_memory_spec (st : CtxState) (cid : String) (now : Nat) (wm : WMMap)
    (hwm : lookupA st.working_memory cid = some wm)
    (hnd : (wm.map Prod.fst).Nodup) :
    (consolidate_memory st cid now).working_memory = st.working_memory ∧
    (∀ k item, lookupA wm k = some item → strength item > 2 →
      lookupA ((lookupA (consolidate_memory st cid now).long_term cid).getD []) k
        = some ⟨item.value, strength item, now⟩) ∧
    (∀ k item, lookupA wm k = some item → ¬ strength item > 2 →
      lookupA ((lookupA (consolidate_memory st cid now).long_term cid).getD []) k
        = lookupA ((lookupA st.long_term cid).getD []) k) ∧
    (∀ k, lookupA wm k = none →
      lookupA ((lookupA (consolidate_memory st cid now).long_term cid).getD []) k
        = lookupA ((lookupA st.long_term cid).getD []) k) := by
  have hunfold : consolidate_memory st cid now
      = (if (consolidateEntries wm now).isEmpty then st
         else { st with long_term :=
           store_long_term_memory st.long_term cid (consolidateEntries wm now) }) := by
    unfold consolidate_memory
    rw [hwm]
  by_cases hemp : (consolidateEntries wm now).isEmpty
  · rw [hunfold, if_pos hemp]
    have hempty : consolidateEntries wm now = [] := by
      simpa [List.isEmpty_iff] using hemp
    refine ⟨rfl, ?_, fun _ _ _ _ => rfl, fun _ _ => rfl⟩
    intro k item hk hs
    have := lookupA_consolidateEntries_pos wm now k item hnd hk hs
    rw [hempty] at this
    simp [lookupA] at this
  · rw [hunfold, if_neg hemp]
    have hlt : lookupA (store_long_term_memory st.long_term cid (consolidateEntries wm now)) cid
        = some (dictUpdate ((lookupA st.long_term cid).getD []) (consolidateEntries wm now)) := by
      unfold store_long_term_memory
      exact lookupA_setAssoc_self _ _ _
    refine ⟨rfl, ?_, ?_, ?_⟩
    · intro k item hk hs
      simp only [hlt, Option.getD_some]
      rw [lookupA_dictUpdate, lookupA_consolidateEntries_pos wm now k item hnd hk hs]
      cases lookupA ((lookupA st.long_term cid).getD []) k <;> simp
    · intro k item hk hs
      simp only [hlt, Option.getD_some]
      rw [lookupA_dictUpdate, lookupA_consolidateEntries_neg wm now k item hnd hk hs]
      cases h2 : lookupA ((lookupA st.long_term cid).getD []) k <;> simp
    · intro k hk
      simp only [hlt, Option.getD_some]
      rw [lookupA_dictUpdate, lookupA_consolidateEntries_none wm now k hk]
      cases h2 : lookupA ((lookupA st.long_term cid).getD []) k <;> simp

/-- Claim C7, witness: the strength example of the specification —
importance 2.0 with 2 reads (strength 4.0) is consolidated, importance
0.5 with 1 read (strength 0.5) is not. -/
theorem consolidate_memory_strength_example :
    lookupA ((lookupA (consolidate_memory st_strength "c1" 9).long_term "c1").getD []) "a"
      = some ⟨"va", strength ⟨"va", 0, 2, 2⟩, 9⟩ ∧
    lookupA ((lookupA (consolidate_memory st_strength "c1" 9).long_term "c1").getD []) "b"
      = none ∧
    (consolidate_memory st_strength "c1" 9).working_memory = st_strength.working_memory := by
  obtain ⟨hframe, hpos, hneg, -⟩ := consolidate_memory_spec st_strength "c1" 9
    [("a", ⟨"va", 0, 2, 2⟩), ("b", ⟨"vb", 0, 1/2, 1⟩)] rfl (by decide)
  refine ⟨hpos "a" _ rfl (by norm_num [strength]), ?_, hframe⟩
  rw [hneg "b" _ rfl (by norm_num [strength])]
  simp [st_strength, lookupA]

/-- Claim C10 (confirmed): consolidation never touches working memory —
for every state, conversation and clock value the working-memory
component is returned unchanged, whether the conversation is unknown,
nothing clears the threshold, or entries are consolidated. -/
theorem consolidate_memory_preserves_working_memory (st : CtxState) (cid : String) (now : Nat) :
    (consolidate_memory st cid now).working_memory = st.working_memory := by
  unfold consolidate_memory
  rcases h : lookupA st.working_memory cid with _ | wm
  · rfl
  · simp only
    split <;> rfl

/-- Claim C8, counterexample: reading the full working-memory map of a
conversation (no key given) leaves the state untouched — the single key
keeps `access_count = 1` instead of being incremented as the claim
requires. -/
theorem get_full_map_does_not_increment_example :
    get_working_memory st_one "c1" none = (.full [("k", item_once)], st_one) ∧
    (lookupA ((lookupA (get_working_memory st_one "c1" none).2.working_memory "c1").getD []) "k").map
      (fun it => it.access_count) = some 1 := by
  decide

/-- Claim C8 (amended): only a read that names a (non-empty) key present
in the map increments that key's `access_count`, by exactly one, and
returns the stored value; a full-map read returns the state unchanged
with no access count incremented. -/
theorem get_working_memory_access_count_spec (st : CtxState) (cid k : String) (wm : WMMap)
    (item : WMItem) (hwm : lookupA st.working_memory cid = some wm)
    (hk : lookupA wm k = some item) (hne : k ≠ "") :
    get_working_memory st cid (some k)
      = (.value item.value,
         CtxState.mk
           (setAssoc st.working_memory cid
             (setAssoc wm k { item with access_count := item.access_count + 1 }))
           st.long_term) ∧
    lookupA ((lookupA (get_working_memory st cid (some k)).2.working_memory cid).getD []) k
      = some { item with access_count := item.access_count + 1 } ∧
    (get_working_memory st cid none).2 = st := by
  have h1 : get_working_memory st cid (some k)
      = (.value item.value,
         CtxState.mk
           (setAssoc st.working_memory cid
             (setAssoc wm k { item with access_count := item.access_count + 1 }))
           st.long_term) := by
    unfold get_working_memory
    rw [hwm]
    simp only [hk, if_neg hne]
  refine ⟨h1, ?_, ?_⟩
  · rw [h1]
    simp only
    rw [lookupA_setAssoc_self]
    simp only [Option.getD_some]
    exact lookupA_setAssoc_self _ _ _
  · unfold get_working_memory
    rcases h : lookupA st.working_memory cid with _ | wm2 <;> rfl

/-- Claim C8, witness for the amended theorem at a concrete input. -/
theorem get_working_memory_access_count_example :
    get_working_memory st_one "c1" (some "k")
      = (.value item_once.value,
         CtxState.mk
           (setAssoc st_one.working_memory "c1"
             (setAssoc [("k", item_once)] "k" { item_once with access_count := item_once.access_count + 1 }))
           st_one.long_term) ∧
    lookupA ((lookupA (get_working_memory st_one "c1" (some "k")).2.working_memory "c1").getD []) "k"
      = some { item_once with access_count := item_once.access_count + 1 } ∧
    (get_working_memory st_one "c1" none).2 = st_one :=
  get_working_memory_access_count_spec st_one "c1" "k" [("k", item_once)] item_once rfl rfl
    (by decide)

/-- Claim C9 (confirmed): the prompt builder is a pure function of the
system prompt, current message, history, preference/expertise context and
additional context — two calls with identical arguments produce the
identical output string, with no clock or randomness input anywhere in
its definition. -/
theorem build_prompt_deterministic (s1 s2 m1 m2 : String) (h1 h2 : List (String × String))
    (p1 p2 : Option String) (e1 e2 : List String) (a1 a2 : Option String)
    (hs : s1 = s2) (hm : m1 = m2) (hh : h1 = h2) (hp : p1 = p2) (he : e1 = e2)
    (ha : a1 = a2) :
    build_prompt s1 m1 h1 p1 e1 a1 = build_prompt s2 m2 h2 p2 e2 a2 := by
  subst hs hm hh hp he ha
  rfl

/-- Claim C9, witness at concrete arguments. -/
theorem build_prompt_deterministic_example :
    build_prompt "sys" "msg" [("u", "a")] (some "p") ["rust"] none
      = build_prompt "sys" "msg" [("u", "a")] (some "p") ["rust"] none :=
  build_prompt_deterministic "sys" "sys" "msg" "msg" [("u", "a")] [("u", "a")]
    (some "p") (some "p") ["rust"] ["rust"] none none rfl rfl rfl rfl rfl rfl

end MarkAI
